import Mathlib

/-!
Verification of the peer session manager (`PeerService`) of the QT
repository: the Link Registry (active / pending-incoming / pending-outgoing
connection maps), the handshake protocol, the broadcast fabric and the
session event surface.  Every definition below is a direct shallow
embedding of the corresponding TypeScript in the source; transport events
(channel data / close / error) are modelled as explicit step functions on
the service state, and callback invocations are recorded as an event list.
-/

namespace QT

/-- A JavaScript runtime value, as far as the dispatch code inspects it:
`undefined`, `null`, strings, arrays and plain objects (association lists of
fields).  Inbound `data` is typed `any` in the source, so the dispatcher is
modelled on this type. -/
inductive JVal where
  | undefined : JVal
  | jnull : JVal
  | str : String → JVal
  | arr : List JVal → JVal
  | obj : List (String × JVal) → JVal

/-- JavaScript property access `v[k]`: throws a TypeError on `undefined` or
`null`, yields the field on objects (or `undefined` when absent), and
`undefined` on other primitives for the property names this code reads. -/
def getField : JVal → String → Except String JVal
  | .undefined, _ => .error "TypeError"
  | .jnull, _ => .error "TypeError"
  | .obj fields, k => .ok (((fields.find? (fun p => p.1 == k)).map Prod.snd).getD .undefined)
  | _, _ => .ok .undefined

/-- JavaScript strict equality `v === k` against a string literal `k`. -/
def JVal.strEq : JVal → String → Bool
  | .str s, k => s == k
  | _, _ => false

/-- JavaScript `Array.isArray`. -/
def JVal.isArr : JVal → Bool
  | .arr _ => true
  | _ => false

/-- A PeerJS `DataConnection`: a unique channel handle identity, the remote
peer identifier (`conn.peer`) and the open flag (`conn.open`). -/
structure Conn where
  id : Nat
  peer : String
  isOpen : Bool
deriving DecidableEq, Repr

/-- A JavaScript `Map<string, DataConnection>` keyed by peer identifier,
with insertion order preserved (the source iterates the maps with
`forEach`). -/
abbrev CMap := List (String × Conn)

/-- `Map.get`. -/
def CMap.get (m : CMap) (k : String) : Option Conn :=
  (m.find? (fun p => p.1 == k)).map Prod.snd

/-- `Map.has`. -/
def CMap.has (m : CMap) (k : String) : Bool :=
  m.any (fun p => p.1 == k)

/-- `Map.set`: replaces the value in place when the key is present,
otherwise appends the new entry. -/
def CMap.set (m : CMap) (k : String) (v : Conn) : CMap :=
  if m.any (fun p => p.1 == k) then
    m.map (fun p => if p.1 == k then (k, v) else p)
  else
    m ++ [(k, v)]

/-- `Map.delete`. -/
def CMap.del (m : CMap) (k : String) : CMap :=
  m.filter (fun p => p.1 != k)

/-- The underlying PeerJS `Peer` object: its registered identifier and
destroyed flag. -/
structure PeerObj where
  id : String
  destroyed : Bool
deriving DecidableEq, Repr

/-- The mutable state of the `PeerService` singleton: the transport peer
(`null` before the first initialization), the local display name, and the
three connection maps (active, pending incoming, pending outgoing). `nextId`
supplies fresh channel handle identities for newly created connections. -/
structure PeerState where
  peer : Option PeerObj
  myName : String
  connections : CMap
  pendingIncoming : CMap
  pendingOutgoing : CMap
  nextId : Nat

/-- A transport-level side effect requested by the service: sending a
serialized message over a channel, or closing a channel. -/
inductive Effect where
  | send : Nat → JVal → Effect
  | close : Nat → Effect

/-- An invocation of one of the registered session-surface callbacks. -/
inductive PEvent where
  | connectionRequest : String → JVal → PEvent
  | peerConnected : String → JVal → PEvent
  | peerDisconnected : String → PEvent
  | msgArrived : JVal → PEvent
  | channelSync : JVal → PEvent
  | boardUpdate : JVal → PEvent
  | messageDeleted : JVal → PEvent
  | typingStatus : JVal → PEvent

/-- The result of one service operation: the updated state, the transport
effects it issued, and the callbacks it raised, in order. -/
abbrev StepResult := PeerState × List Effect × List PEvent

/-- The wire form of `{ type: 'HANDSHAKE_INIT', payload: { name } }`. -/
def handshakeInitMsg (name : String) : JVal :=
  .obj [("type", .str "HANDSHAKE_INIT"), ("payload", .obj [("name", .str name)])]

/-- The wire form of `{ type: 'HANDSHAKE_ACCEPT', payload: { name } }`. -/
def handshakeAcceptMsg (name : String) : JVal :=
  .obj [("type", .str "HANDSHAKE_ACCEPT"), ("payload", .obj [("name", .str name)])]

/-- The wire form of `{ type: 'CHAT_MESSAGE', payload: message }`. -/
def chatPacket (message : JVal) : JVal :=
  .obj [("type", .str "CHAT_MESSAGE"), ("payload", message)]

/-- The outcome of `initialize`: either the promise resolves immediately
with the existing identifier, or a fresh transport `Peer` registration is
created (whose open/error outcome arrives asynchronously). -/
inductive InitResult where
  | resolved : String → InitResult
  | created : InitResult
deriving DecidableEq, Repr

/-- `PeerService.initialize(userId, userName)`: stores the display name;
if a live non-destroyed peer with the same id already exists, resolves
immediately with it, otherwise constructs a new transport `Peer` registered
under `userId`. -/
def initService (st : PeerState) (userId userName : String) : PeerState × InitResult :=
  let st1 := { st with myName := userName }
  match st1.peer with
  | some p =>
      if p.destroyed = false ∧ p.id = userId then (st1, .resolved userId)
      else ({ st1 with peer := some ⟨userId, false⟩ }, .created)
  | none => ({ st1 with peer := some ⟨userId, false⟩ }, .created)

/-- `PeerService.connectToPeer(peerId)`: no-op without a transport peer or
when an active connection exists; closes a previous pending outgoing
channel when retrying; records the freshly created (not yet open)
connection in the pending-outgoing map. -/
def connectToPeer (st : PeerState) (peerId : String) : StepResult :=
  match st.peer with
  | none => (st, [], [])
  | some _ =>
      if CMap.has st.connections peerId then (st, [], [])
      else
        let closeEffs :=
          match CMap.get st.pendingOutgoing peerId with
          | some oldConn => [Effect.close oldConn.id]
          | none => []
        let conn : Conn := ⟨st.nextId, peerId, false⟩
        ({ st with
            pendingOutgoing := CMap.set st.pendingOutgoing peerId conn,
            nextId := st.nextId + 1 },
         closeEffs, [])

/-- The `conn.on('open', ...)` handler installed by `connectToPeer`: once
the outgoing channel opens, send `HANDSHAKE_INIT` with the local display
name. -/
def outgoingOpenHandler (st : PeerState) (conn : Conn) : List Effect :=
  [Effect.send conn.id (handshakeInitMsg st.myName)]

/-- `PeerService.finalizeConnection(conn, name)`: registers the connection
in the active map under `conn.peer` and raises the peer-connected callback
with `(conn.peer, name)`. -/
def finalizeConnection (st : PeerState) (conn : Conn) (name : JVal) : StepResult :=
  ({ st with connections := CMap.set st.connections conn.peer conn },
   [], [PEvent.peerConnected conn.peer name])

/-- The `conn.on('data', ...)` handler installed by `setupDataListener`:
dispatches an inbound raw value on its `type` tag.  Field accesses on the
untyped payload follow JavaScript semantics (`getField`), so a read from an
absent payload raises a TypeError exactly where the source would. -/
def handleData (st : PeerState) (conn : Conn) (data : JVal) :
    Except String StepResult := do
  let t ← getField data "type"
  if JVal.strEq t "HANDSHAKE_INIT" then do
    let payload ← getField data "payload"
    let peerName ← getField payload "name"
    pure ({ st with pendingIncoming := CMap.set st.pendingIncoming conn.peer conn },
          [], [PEvent.connectionRequest conn.peer peerName])
  else if JVal.strEq t "HANDSHAKE_ACCEPT" then do
    let payload ← getField data "payload"
    let peerName ← getField payload "name"
    pure (finalizeConnection
            { st with pendingOutgoing := CMap.del st.pendingOutgoing conn.peer }
            conn peerName)
  else if JVal.strEq t "CHAT_MESSAGE" then do
    let payload ← getField data "payload"
    pure (st, [], [PEvent.msgArrived payload])
  else if JVal.strEq t "CHANNEL_SYNC" then do
    let payload ← getField data "payload"
    if JVal.isArr payload then pure (st, [], [PEvent.channelSync payload])
    else pure (st, [], [])
  else if JVal.strEq t "BOARD_UPDATE" then do
    let payload ← getField data "payload"
    pure (st, [], [PEvent.boardUpdate payload])
  else if JVal.strEq t "DELETE_MESSAGE" then do
    let payload ← getField data "payload"
    let msgId ← getField payload "id"
    pure (st, [], [PEvent.messageDeleted msgId])
  else if JVal.strEq t "TYPING_STATUS" then do
    let payload ← getField data "payload"
    pure (st, [], [PEvent.typingStatus payload])
  else
    pure (st, [], [])

/-- The `conn.on('close', ...)` handler installed by `setupDataListener`:
deletes the peer from all three maps and raises the peer-disconnected
callback unconditionally. -/
def handleClose (st : PeerState) (conn : Conn) : StepResult :=
  ({ st with
      connections := CMap.del st.connections conn.peer,
      pendingIncoming := CMap.del st.pendingIncoming conn.peer,
      pendingOutgoing := CMap.del st.pendingOutgoing conn.peer },
   [], [PEvent.peerDisconnected conn.peer])

/-- The `conn.on('error', ...)` handler installed by `setupDataListener`:
deletes the peer from the active and pending-outgoing maps only, raising no
callback. -/
def handleError (st : PeerState) (conn : Conn) : StepResult :=
  ({ st with
      connections := CMap.del st.connections conn.peer,
      pendingOutgoing := CMap.del st.pendingOutgoing conn.peer },
   [], [])

/-- `PeerService.acceptConnection(peerId)`: when a pending incoming
connection exists, sends `HANDSHAKE_ACCEPT`, removes it from the
pending-incoming map and finalizes it — passing `peerId` (not the stored
display name) as the name argument, exactly as the source does. -/
def acceptConnection (st : PeerState) (peerId : String) : StepResult :=
  match CMap.get st.pendingIncoming peerId with
  | none => (st, [], [])
  | some conn =>
      let st2 := { st with pendingIncoming := CMap.del st.pendingIncoming peerId }
      let fin := finalizeConnection st2 conn (JVal.str peerId)
      (fin.1, Effect.send conn.id (handshakeAcceptMsg st.myName) :: fin.2.1, fin.2.2)

/-- `PeerService.rejectConnection(peerId)`: closes and forgets a pending
incoming connection, if any. -/
def rejectConnection (st : PeerState) (peerId : String) : StepResult :=
  match CMap.get st.pendingIncoming peerId with
  | none => (st, [], [])
  | some conn =>
      ({ st with pendingIncoming := CMap.del st.pendingIncoming peerId },
       [Effect.close conn.id], [])

/-- `PeerService.cancelRequest(peerId)`: closes and forgets a pending
outgoing connection, if any. -/
def cancelRequest (st : PeerState) (peerId : String) : StepResult :=
  match CMap.get st.pendingOutgoing peerId with
  | none => (st, [], [])
  | some conn =>
      ({ st with pendingOutgoing := CMap.del st.pendingOutgoing peerId },
       [Effect.close conn.id], [])

/-- `PeerService.disconnectPeer(peerId)`: closes and forgets an active
connection, if any, raising the peer-disconnected callback. -/
def disconnectPeer (st : PeerState) (peerId : String) : StepResult :=
  match CMap.get st.connections peerId with
  | none => (st, [], [])
  | some conn =>
      ({ st with connections := CMap.del st.connections peerId },
       [Effect.close conn.id], [PEvent.peerDisconnected peerId])

/-- `PeerService.broadcast(message)`: wraps the message in a
`CHAT_MESSAGE` packet and sends it over every active connection whose
channel reports open, in map iteration order. -/
def broadcast (st : PeerState) (message : JVal) : List Effect :=
  st.connections.filterMap
    (fun p => if p.2.isOpen then some (Effect.send p.2.id (chatPacket message)) else none)

/-! ### Basic lemmas about the JavaScript map embedding -/

theorem CMap.get_del_self (m : CMap) (k : String) : CMap.get (CMap.del m k) k = none := by
  simp only [CMap.get, CMap.del]
  have hnone : (m.filter (fun p => p.1 != k)).find? (fun p => p.1 == k) = none := by
    apply List.find?_eq_none.mpr
    intro x hx
    have hmem : (x.1 != k) = true := (List.mem_filter.mp hx).2
    simp only [bne_iff_ne, ne_eq] at hmem
    simp [hmem]
  simp [hnone]

theorem CMap.get_del_ne (m : CMap) (k j : String) (h : j ≠ k) :
    CMap.get (CMap.del m k) j = CMap.get m j := by
  simp only [CMap.get, CMap.del, List.find?_filter]
  have hcong : (fun a : String × Conn => decide ((a.1 != k) = true ∧ (a.1 == j) = true)) =
      fun a : String × Conn => a.1 == j := by
    funext a
    by_cases ha : a.1 = j
    · simp [ha, h]
    · simp [ha]
  rw [hcong]

theorem CMap.del_of_get_none (m : CMap) (k : String) (h : CMap.get m k = none) :
    CMap.del m k = m := by
  have hfind : m.find? (fun p => p.1 == k) = none := by
    cases hf : m.find? (fun p => p.1 == k) with
    | none => rfl
    | some x => rw [CMap.get, hf] at h; simp at h
  have hall := List.find?_eq_none.mp hfind
  apply List.filter_eq_self.mpr
  intro a ha
  have := hall a ha
  simpa using this

theorem CMap.get_set_self (m : CMap) (k : String) (v : Conn) :
    CMap.get (CMap.set m k v) k = some v := by
  unfold CMap.set
  by_cases hA : m.any (fun p => p.1 == k) = true
  · simp only [if_pos hA, CMap.get, List.find?_map]
    have hcomp : ((fun p : String × Conn => p.1 == k) ∘
        (fun p => if p.1 == k then (k, v) else p)) = fun p : String × Conn => p.1 == k := by
      funext a
      by_cases ha : (a.1 == k) = true
      · simp [Function.comp, ha]
      · simp [Function.comp, ha]
    rw [hcomp]
    have hsome : (m.find? (fun p => p.1 == k)).isSome := by
      rw [List.find?_isSome]
      simpa using hA
    obtain ⟨x, hx⟩ := Option.isSome_iff_exists.mp hsome
    have hx1 : (x.1 == k) = true := List.find?_some (p := fun q : String × Conn => q.1 == k) hx
    have hxeq : x.1 = k := by simpa using hx1
    simp [hx, hxeq]
  · simp only [if_neg hA, CMap.get, List.find?_append]
    have hnone : m.find? (fun p => p.1 == k) = none := by
      apply List.find?_eq_none.mpr
      intro x hx hq
      exact hA (List.any_eq_true.mpr ⟨x, hx, hq⟩)
    simp [hnone]

theorem CMap.get_set_ne (m : CMap) (k j : String) (v : Conn) (h : j ≠ k) :
    CMap.get (CMap.set m k v) j = CMap.get m j := by
  unfold CMap.set
  by_cases hA : m.any (fun p => p.1 == k) = true
  · simp only [if_pos hA, CMap.get, List.find?_map]
    have hcomp : ((fun p : String × Conn => p.1 == j) ∘
        (fun p => if p.1 == k then (k, v) else p)) = fun p : String × Conn => p.1 == j := by
      funext a
      by_cases ha : (a.1 == k) = true
      · have hak : a.1 = k := by simpa using ha
        have h1 : (a.1 == j) = false := by simp [hak, Ne.symm h]
        have h2 : ((k : String) == j) = false := by simp [Ne.symm h]
        simp [Function.comp, ha, h1, h2]
      · simp [Function.comp, ha]
    rw [hcomp]
    cases hfind : m.find? (fun p => p.1 == j) with
    | none => simp
    | some x =>
        have hpx : (x.1 == j) = true := List.find?_some (p := fun q : String × Conn => q.1 == j) hfind
        have hxk : ¬ x.1 = k := by
          have hxj : x.1 = j := by simpa using hpx
          simp [hxj, h]
        simp [hxk]
  · simp only [if_neg hA, CMap.get, List.find?_append]
    have hkj : (((k, v) : String × Conn).1 == j) = false := by simp [Ne.symm h]
    simp [List.find?_cons, hkj]

theorem CMap.filter_set_self (m : CMap) (k : String) (v : Conn)
    (hU : (m.map Prod.fst).Nodup) :
    ((CMap.set m k v).filter (fun p => p.1 == k)).length = 1 := by
  unfold CMap.set
  by_cases hA : m.any (fun p => p.1 == k) = true
  · simp only [if_pos hA]
    rw [← List.countP_eq_length_filter, List.countP_map]
    have hcomp : ((fun p : String × Conn => p.1 == k) ∘
        (fun p => if p.1 == k then (k, v) else p)) = fun p : String × Conn => p.1 == k := by
      funext a
      by_cases ha : (a.1 == k) = true
      · simp [Function.comp, ha]
      · simp [Function.comp, ha]
    rw [hcomp]
    have hcount : m.countP (fun p => p.1 == k) = (m.map Prod.fst).count k := by
      rw [List.count_eq_countP, List.countP_map]
      congr 1
    have hle : (m.map Prod.fst).count k ≤ 1 := List.nodup_iff_count_le_one.mp hU k
    have hmem : k ∈ m.map Prod.fst := by
      obtain ⟨x, hx, hq⟩ := List.any_eq_true.mp hA
      have : x.1 = k := by simpa using hq
      exact this ▸ List.mem_map_of_mem Prod.fst hx
    have hpos : 0 < (m.map Prod.fst).count k := List.count_pos_iff.mpr hmem
    omega
  · simp only [if_neg hA]
    have hnil : m.filter (fun p => p.1 == k) = [] := by
      apply List.filter_eq_nil_iff.mpr
      intro x hx hq
      exact hA (List.any_eq_true.mpr ⟨x, hx, hq⟩)
    simp [List.filter_append, hnil]

/-- `CMap.has` false forces `CMap.get` none. -/
theorem CMap.get_eq_none_of_has_false (m : CMap) (k : String) (h : CMap.has m k = false) :
    CMap.get m k = none := by
  have hfind : m.find? (fun p => p.1 == k) = none := by
    apply List.find?_eq_none.mpr
    intro x hx hq
    have : CMap.has m k = true := List.any_eq_true.mpr ⟨x, hx, hq⟩
    rw [this] at h
    exact Bool.true_eq_false.mp h
  simp [CMap.get, hfind]

/-! ### Concrete fixtures used by the claim theorems -/

/-- A freshly initialized service with no links. -/
def stEmpty : PeerState := ⟨some ⟨"me", false⟩, "Me", [], [], [], 0⟩

/-- The inbound channel from the remote peer `alice-id`. -/
def c2Conn : Conn := ⟨5, "alice-id", true⟩

/-- The local service of user `Bob` before `alice-id` sends her handshake. -/
def c2St : PeerState := ⟨some ⟨"bob-id", false⟩, "Bob", [], [], [], 9⟩

/-- A service holding one active link and one pending incoming link. -/
def c7St : PeerState :=
  ⟨some ⟨"me", false⟩, "Me", [("amy", ⟨1, "amy", true⟩)], [("bob", ⟨2, "bob", true⟩)], [], 3⟩

/-! ### C2 — acceptIncoming raises peer-connected with the peer id, not the
display name carried by the handshake -/

/-- C2: `acceptIncoming(r)` on a pending-incoming Link sends exactly one
`HANDSHAKE_ACCEPT`, removes `r` from the pending-incoming set and moves the
Link to active — but the single peer-connected event it raises carries the
remote identifier `alice-id` as its name argument, not the display name
`Alice` that the original `HANDSHAKE_INIT` carried: the source calls
`finalizeConnection(conn, peerId)` and never stores the received name. -/
theorem acceptConnection_uses_peerId_not_displayName :
    handleData c2St c2Conn (handshakeInitMsg "Alice") =
      .ok ({ c2St with pendingIncoming := [("alice-id", c2Conn)] }, [],
           [PEvent.connectionRequest "alice-id" (JVal.str "Alice")]) ∧
    acceptConnection { c2St with pendingIncoming := [("alice-id", c2Conn)] } "alice-id" =
      ({ c2St with connections := [("alice-id", c2Conn)], pendingIncoming := [] },
       [Effect.send 5 (handshakeAcceptMsg "Bob")],
       [PEvent.peerConnected "alice-id" (JVal.str "alice-id")]) ∧
    JVal.str "alice-id" ≠ JVal.str "Alice" := by
  refine ⟨rfl, rfl, ?_⟩
  intro h
  injection h with h2
  exact absurd h2 (by decide)

/-! ### C7 — a channel error is not handled like a channel close -/

/-- C7 counterexample: with an active link to `amy` and a pending incoming
link from `bob`, a channel error on the active link raises no
peer-disconnected event, and a channel error on the pending incoming link
leaves the pending-incoming entry in place — both contradicting the claim
that an error is handled exactly like a close. -/
theorem channel_error_unlike_close_counterexample :
    (handleError c7St ⟨1, "amy", true⟩).2.2 = [] ∧
    CMap.get (handleError c7St ⟨2, "bob", true⟩).1.pendingIncoming "bob" =
      some ⟨2, "bob", true⟩ := by
  exact ⟨rfl, rfl⟩

/-- C7 amended: a channel error on a Link removes the peer from the active
and pending-outgoing maps only; the pending-incoming map is untouched and no
peer-disconnected event is raised, even when the Link was active. -/
theorem channel_error_clears_active_and_outgoing_only (st : PeerState) (c : Conn) :
    (handleError st c).2.1 = [] ∧
    (handleError st c).2.2 = [] ∧
    CMap.get (handleError st c).1.connections c.peer = none ∧
    CMap.get (handleError st c).1.pendingOutgoing c.peer = none ∧
    (handleError st c).1.pendingIncoming = st.pendingIncoming := by
  exact ⟨rfl, rfl, CMap.get_del_self _ _, CMap.get_del_self _ _, rfl⟩

/-! ### C9 — operations on a missing Link are no-ops -/

/-- C9: when no Link is in the state an operation requires, the operation
returns without exception, without transport effects, without events, and
with the registry unchanged: `acceptConnection`/`rejectConnection` need a
pending-incoming entry, `cancelRequest` a pending-outgoing entry and
`disconnectPeer` an active entry. -/
theorem missing_link_ops_are_noops (st : PeerState) (r : String) :
    (CMap.get st.pendingIncoming r = none →
      acceptConnection st r = (st, [], []) ∧ rejectConnection st r = (st, [], [])) ∧
    (CMap.get st.pendingOutgoing r = none → cancelRequest st r = (st, [], [])) ∧
    (CMap.get st.connections r = none → disconnectPeer st r = (st, [], [])) := by
  refine ⟨fun h => ⟨?_, ?_⟩, fun h => ?_, fun h => ?_⟩
  · unfold acceptConnection
    rw [h]
  · unfold rejectConnection
    rw [h]
  · unfold cancelRequest
    rw [h]
  · unfold disconnectPeer
    rw [h]

/-- C9 witness: on the fresh service, all four operations aimed at the
absent peer `ghost` are exact no-ops. -/
theorem missing_link_ops_are_noops_witness :
    acceptConnection stEmpty "ghost" = (stEmpty, [], []) ∧
    rejectConnection stEmpty "ghost" = (stEmpty, [], []) ∧
    cancelRequest stEmpty "ghost" = (stEmpty, [], []) ∧
    disconnectPeer stEmpty "ghost" = (stEmpty, [], []) := by
  have h := missing_link_ops_are_noops stEmpty "ghost"
  exact ⟨(h.1 rfl).1, (h.1 rfl).2, h.2.1 rfl, h.2.2 rfl⟩

/-! ### C10 — re-initialization with the live identifier is idempotent -/

/-- C10: calling `initialize(userId, userName)` while the service already
holds a live, non-destroyed transport peer with the same `userId` resolves
immediately with that id, creates no new transport registration, and leaves
the transport peer and all three link maps untouched (only the stored
display name is refreshed). -/
theorem initService_idempotent_same_id (st : PeerState) (p : PeerObj) (u n : String)
    (hp : st.peer = some p) (hd : p.destroyed = false) (hid : p.id = u) :
    initService st u n = ({ st with myName := n }, InitResult.resolved u) ∧
    (initService st u n).1.connections = st.connections ∧
    (initService st u n).1.pendingIncoming = st.pendingIncoming ∧
    (initService st u n).1.pendingOutgoing = st.pendingOutgoing ∧
    (initService st u n).1.peer = st.peer := by
  have hmain : initService st u n = ({ st with myName := n }, InitResult.resolved u) := by
    unfold initService
    simp [hp, hd, hid]
  refine ⟨hmain, ?_, ?_, ?_, ?_⟩ <;> rw [hmain]

/-- C10 witness: re-initializing the fresh service under its own id `me`
resolves immediately and changes nothing but the stored display name. -/
theorem initService_idempotent_same_id_witness :
    initService stEmpty "me" "NewName" =
      ({ stEmpty with myName := "NewName" }, InitResult.resolved "me") :=
  (initService_idempotent_same_id stEmpty ⟨"me", false⟩ "me" "NewName" rfl rfl rfl).1

/-! ### C1 — the simultaneous-connect race admits duplicate Links -/

/-- Our own pending outgoing attempt towards `bob`. -/
def c1OldConn : Conn := ⟨1, "bob", false⟩

/-- The separately opened inbound channel from `bob`. -/
def c1NewConn : Conn := ⟨2, "bob", true⟩

/-- A service with a pending outgoing Link for `bob`. -/
def c1St : PeerState := ⟨some ⟨"me", false⟩, "Me", [], [], [("bob", c1OldConn)], 3⟩

/-- C1 counterexample: a `HANDSHAKE_INIT` from `bob` arriving while a
pending-outgoing Link for `bob` exists does create a pending-incoming Link,
so the resulting registry holds two Links for `bob` at once — refuting the
at-most-one-Link claim. -/
theorem handshakeInit_race_duplicate_counterexample :
    handleData c1St c1NewConn (handshakeInitMsg "Bob") =
      .ok ({ c1St with pendingIncoming := [("bob", c1NewConn)] }, [],
           [PEvent.connectionRequest "bob" (JVal.str "Bob")]) ∧
    CMap.get ({ c1St with pendingIncoming := [("bob", c1NewConn)] }).pendingIncoming "bob" =
      some c1NewConn ∧
    CMap.get ({ c1St with pendingIncoming := [("bob", c1NewConn)] }).pendingOutgoing "bob" =
      some c1OldConn := by
  exact ⟨rfl, rfl, rfl⟩

/-- C1 amended: within each single map at most one entry per remote id can
exist (JavaScript map semantics), but across maps the registry does not
enforce uniqueness: a `HANDSHAKE_INIT` arriving from a peer with a
pending-outgoing Link installs a pending-incoming Link alongside it and
raises a connection-request event, leaving both Links in the registry. -/
theorem handshakeInit_during_pendingOutgoing (st : PeerState) (conn : Conn)
    (name : String) (c : Conn)
    (h : CMap.get st.pendingOutgoing conn.peer = some c) :
    handleData st conn (handshakeInitMsg name) =
      .ok ({ st with pendingIncoming := CMap.set st.pendingIncoming conn.peer conn }, [],
           [PEvent.connectionRequest conn.peer (JVal.str name)]) ∧
    CMap.get ({ st with
        pendingIncoming := CMap.set st.pendingIncoming conn.peer conn }).pendingIncoming
      conn.peer = some conn ∧
    CMap.get ({ st with
        pendingIncoming := CMap.set st.pendingIncoming conn.peer conn }).pendingOutgoing
      conn.peer = some c := by
  exact ⟨rfl, CMap.get_set_self _ _ _, h⟩

/-- C1 witness: the amended theorem applied to the concrete race state. -/
theorem handshakeInit_during_pendingOutgoing_witness :
    CMap.get c1St.pendingOutgoing "bob" = some c1OldConn ∧
    CMap.get (CMap.set c1St.pendingIncoming "bob" c1NewConn) "bob" = some c1NewConn := by
  have h := handshakeInit_during_pendingOutgoing c1St c1NewConn "Bob" c1OldConn rfl
  exact ⟨rfl, h.2.1⟩

/-! ### C3 — closing a pending Link is not silent -/

/-- The pending incoming channel from `carol`. -/
def c3Conn : Conn := ⟨4, "carol", true⟩

/-- A service whose only Link is a pending incoming one from `carol`. -/
def c3St : PeerState := ⟨some ⟨"me", false⟩, "Me", [], [("carol", c3Conn)], [], 8⟩

/-- C3 counterexample: when the channel of the pending (never active)
incoming Link from `carol` closes, the close handler raises a
peer-disconnected event — the teardown is not silent as claimed. -/
theorem pending_close_raises_event_counterexample :
    (handleClose c3St c3Conn).2.2 = [PEvent.peerDisconnected "carol"] := rfl

/-- C3 amended: a channel close in any state removes the peer from all
three maps but always raises a peer-disconnected event, pending or not;
`connect(r)` immediately followed by `cancelOutgoing(r)` leaves the registry
with no Link for `r` and those two calls themselves raise no events (the
cancel closes the channel; the eventual channel-close event then raises a
further peer-disconnected). -/
theorem close_teardown_and_connect_cancel (st : PeerState) (c : Conn)
    (st2 : PeerState) (r : String) (p : PeerObj)
    (hp : st2.peer = some p)
    (hact : CMap.has st2.connections r = false)
    (hin : CMap.get st2.pendingIncoming r = none) :
    (CMap.get (handleClose st c).1.connections c.peer = none ∧
     CMap.get (handleClose st c).1.pendingIncoming c.peer = none ∧
     CMap.get (handleClose st c).1.pendingOutgoing c.peer = none ∧
     (handleClose st c).2.2 = [PEvent.peerDisconnected c.peer]) ∧
    ((connectToPeer st2 r).2.2 = [] ∧
     (cancelRequest (connectToPeer st2 r).1 r).2.2 = [] ∧
     CMap.get (cancelRequest (connectToPeer st2 r).1 r).1.connections r = none ∧
     CMap.get (cancelRequest (connectToPeer st2 r).1 r).1.pendingIncoming r = none ∧
     CMap.get (cancelRequest (connectToPeer st2 r).1 r).1.pendingOutgoing r = none) := by
  have hconn : connectToPeer st2 r =
      ({ st2 with
          pendingOutgoing := CMap.set st2.pendingOutgoing r ⟨st2.nextId, r, false⟩,
          nextId := st2.nextId + 1 },
       (match CMap.get st2.pendingOutgoing r with
        | some oldConn => [Effect.close oldConn.id]
        | none => []), []) := by
    unfold connectToPeer
    rw [hp, hact]
    simp
  have hcancel : cancelRequest (connectToPeer st2 r).1 r =
      ({ (connectToPeer st2 r).1 with
          pendingOutgoing :=
            CMap.del (CMap.set st2.pendingOutgoing r ⟨st2.nextId, r, false⟩) r },
       [Effect.close st2.nextId], []) := by
    rw [hconn]
    unfold cancelRequest
    rw [show CMap.get (CMap.set st2.pendingOutgoing r ⟨st2.nextId, r, false⟩) r =
          some ⟨st2.nextId, r, false⟩ from CMap.get_set_self _ _ _]
  refine ⟨⟨CMap.get_del_self _ _, CMap.get_del_self _ _, CMap.get_del_self _ _, rfl⟩, ?_⟩
  rw [hconn] at hcancel ⊢
  rw [hcancel]
  refine ⟨rfl, rfl, ?_, hin, CMap.get_del_self _ _⟩
  exact CMap.get_eq_none_of_has_false _ _ hact

/-- C3 witness: on the fresh service, connect to `dave` then cancel: no Link
for `dave` remains in any map and neither call raised an event; and the
close of `carol`'s pending channel cleared every map entry for `carol`. -/
theorem close_teardown_and_connect_cancel_witness :
    (connectToPeer stEmpty "dave").2.2 = [] ∧
    (cancelRequest (connectToPeer stEmpty "dave").1 "dave").2.2 = [] ∧
    CMap.get (cancelRequest (connectToPeer stEmpty "dave").1 "dave").1.pendingOutgoing
      "dave" = none ∧
    CMap.get (handleClose c3St c3Conn).1.pendingIncoming "carol" = none := by
  have h := close_teardown_and_connect_cancel c3St c3Conn stEmpty "dave" ⟨"me", false⟩
    rfl rfl rfl
  exact ⟨h.2.1, h.2.2.1, h.2.2.2.2.2, h.1.2.1⟩

/-! ### C5 — a second close event for an already-removed peer is not a no-op -/

/-- The active channel to `erin`. -/
def c5Conn : Conn := ⟨6, "erin", true⟩

/-- A service with one active Link to `erin`. -/
def c5St : PeerState := ⟨some ⟨"me", false⟩, "Me", [("erin", c5Conn)], [], [], 7⟩

/-- C5 counterexample: after the first close event has removed `erin`, a
second close event for the same channel raises another peer-disconnected
event — the handler fires its callback unconditionally, so the second close
is not a no-op. -/
theorem second_close_raises_event_counterexample :
    (handleClose c5St c5Conn).2.2 = [PEvent.peerDisconnected "erin"] ∧
    (handleClose (handleClose c5St c5Conn).1 c5Conn).2.2 =
      [PEvent.peerDisconnected "erin"] := by
  exact ⟨rfl, rfl⟩

/-- C5 amended: closing the channel of an active Link removes the peer from
the active set and raises exactly one peer-disconnected event; a second
close event for the already-removed peer leaves the registry unchanged but
raises one further peer-disconnected event. -/
theorem active_close_removes_and_second_close_raises_again (st st2 : PeerState) (c : Conn)
    (hact : CMap.get st.connections c.peer = some c)
    (h1 : CMap.get st2.connections c.peer = none)
    (h2 : CMap.get st2.pendingIncoming c.peer = none)
    (h3 : CMap.get st2.pendingOutgoing c.peer = none) :
    (CMap.get (handleClose st c).1.connections c.peer = none ∧
     (handleClose st c).2.2 = [PEvent.peerDisconnected c.peer]) ∧
    handleClose st2 c = (st2, [], [PEvent.peerDisconnected c.peer]) := by
  refine ⟨⟨CMap.get_del_self _ _, rfl⟩, ?_⟩
  unfold handleClose
  rw [CMap.del_of_get_none _ _ h1, CMap.del_of_get_none _ _ h2, CMap.del_of_get_none _ _ h3]

/-- C5 witness: the amended theorem applied to the concrete active Link to
`erin`, with the fresh service standing for the registry after the removal. -/
theorem active_close_removes_and_second_close_raises_again_witness :
    CMap.get (handleClose c5St c5Conn).1.connections "erin" = none ∧
    handleClose stEmpty c5Conn = (stEmpty, [], [PEvent.peerDisconnected "erin"]) := by
  have h := active_close_removes_and_second_close_raises_again c5St stEmpty c5Conn
    rfl rfl rfl rfl
  exact ⟨h.1.1, h.2⟩

/-- Binding an already-resolved `Except` value just applies the
continuation. -/
theorem exceptOkBind {α β : Type} (a : α) (f : α → Except String β) :
    ((Except.ok a : Except String α) >>= f) = f a := rfl

/-! ### C6 — the three cases of connect -/

/-- A service with one active Link to `amy` and one pending outgoing Link
to `bob`. -/
def c6St : PeerState :=
  ⟨some ⟨"me", false⟩, "Me", [("amy", ⟨1, "amy", true⟩)], [], [("bob", ⟨2, "bob", false⟩)], 3⟩

/-- C6: on an initialized service, `connect(remoteId)` is an exact no-op
when an active Link for `remoteId` exists; when a pending-outgoing Link
exists it issues a close of that Link's channel and replaces the entry so
that exactly one pending-outgoing Link for `remoteId` remains; and when
neither exists it records exactly one freshly created pending-outgoing Link
and leaves the other maps untouched.  In the two non-trivial cases no event
is raised. -/
theorem connectToPeer_cases (st : PeerState) (r : String) (p : PeerObj)
    (hp : st.peer = some p) :
    (CMap.has st.connections r = true → connectToPeer st r = (st, [], [])) ∧
    (∀ oldC : Conn, CMap.has st.connections r = false →
      CMap.get st.pendingOutgoing r = some oldC →
      (st.pendingOutgoing.map Prod.fst).Nodup →
      (connectToPeer st r).2.1 = [Effect.close oldC.id] ∧
      (connectToPeer st r).2.2 = [] ∧
      CMap.get (connectToPeer st r).1.pendingOutgoing r = some ⟨st.nextId, r, false⟩ ∧
      ((connectToPeer st r).1.pendingOutgoing.filter (fun q => q.1 == r)).length = 1) ∧
    (CMap.has st.connections r = false → CMap.get st.pendingOutgoing r = none →
      (st.pendingOutgoing.map Prod.fst).Nodup →
      (connectToPeer st r).2.1 = [] ∧
      (connectToPeer st r).2.2 = [] ∧
      CMap.get (connectToPeer st r).1.pendingOutgoing r = some ⟨st.nextId, r, false⟩ ∧
      ((connectToPeer st r).1.pendingOutgoing.filter (fun q => q.1 == r)).length = 1 ∧
      (connectToPeer st r).1.connections = st.connections ∧
      (connectToPeer st r).1.pendingIncoming = st.pendingIncoming) := by
  refine ⟨fun hhas => ?_, fun oldC hhas hout hU => ?_, fun hhas hout hU => ?_⟩
  · unfold connectToPeer
    rw [hp, hhas]
    simp
  · have hconn : connectToPeer st r =
        ({ st with
            pendingOutgoing := CMap.set st.pendingOutgoing r ⟨st.nextId, r, false⟩,
            nextId := st.nextId + 1 },
         [Effect.close oldC.id], []) := by
      unfold connectToPeer
      rw [hp, hhas, hout]
      simp
    rw [hconn]
    exact ⟨rfl, rfl, CMap.get_set_self _ _ _, CMap.filter_set_self _ _ _ hU⟩
  · have hconn : connectToPeer st r =
        ({ st with
            pendingOutgoing := CMap.set st.pendingOutgoing r ⟨st.nextId, r, false⟩,
            nextId := st.nextId + 1 },
         [], []) := by
      unfold connectToPeer
      rw [hp, hhas, hout]
      simp
    rw [hconn]
    exact ⟨rfl, rfl, CMap.get_set_self _ _ _, CMap.filter_set_self _ _ _ hU, rfl, rfl⟩

/-- C6 witness: on the concrete service, connecting to the active peer
`amy` is a no-op; retrying `bob` closes channel 2 and leaves exactly one
pending-outgoing entry for `bob`; connecting to the unknown `carol` records
exactly one pending-outgoing entry for `carol` with the fresh channel. -/
theorem connectToPeer_cases_witness :
    connectToPeer c6St "amy" = (c6St, [], []) ∧
    (connectToPeer c6St "bob").2.1 = [Effect.close 2] ∧
    CMap.get (connectToPeer c6St "bob").1.pendingOutgoing "bob" = some ⟨3, "bob", false⟩ ∧
    ((connectToPeer c6St "bob").1.pendingOutgoing.filter
      (fun q => q.1 == "bob")).length = 1 ∧
    (connectToPeer c6St "carol").2.1 = [] ∧
    CMap.get (connectToPeer c6St "carol").1.pendingOutgoing "carol" =
      some ⟨3, "carol", false⟩ := by
  have ha := (connectToPeer_cases c6St "amy" ⟨"me", false⟩ rfl).1 rfl
  have hb := (connectToPeer_cases c6St "bob" ⟨"me", false⟩ rfl).2.1 ⟨2, "bob", false⟩
    rfl rfl (by decide)
  have hc := (connectToPeer_cases c6St "carol" ⟨"me", false⟩ rfl).2.2 rfl rfl (by decide)
  exact ⟨ha, hb.1, hb.2.2.1, hb.2.2.2, hc.1, hc.2.2.1⟩

/-! ### C4 — broadcast reaches exactly the open active links -/

/-- C4: `broadcast(m)` issues a send of the `CHAT_MESSAGE` packet on the
channel of every active Link whose channel reports open — with no condition
on any other Link, so a failed (no longer open) Link cannot prevent delivery
to the remaining ones — and every send it issues targets an open active
Link: pending and absent Links receive nothing. -/
theorem broadcast_sends_exactly_open_active (st : PeerState) (m : JVal) :
    (∀ k c, (k, c) ∈ st.connections → c.isOpen = true →
      Effect.send c.id (chatPacket m) ∈ broadcast st m) ∧
    (∀ e, e ∈ broadcast st m → ∃ k c, (k, c) ∈ st.connections ∧ c.isOpen = true ∧
      e = Effect.send c.id (chatPacket m)) := by
  constructor
  · intro k c hmem hopen
    unfold broadcast
    exact List.mem_filterMap.mpr ⟨(k, c), hmem, by simp [hopen]⟩
  · intro e he
    unfold broadcast at he
    obtain ⟨q, hq, hfe⟩ := List.mem_filterMap.mp he
    by_cases ho : q.2.isOpen = true
    · rw [if_pos ho] at hfe
      exact ⟨q.1, q.2, by simpa using hq, ho, (Option.some_inj.mp hfe).symm⟩
    · rw [if_neg ho] at hfe
      exact absurd hfe (by simp)

/-- A service with open active links to `amy` and `carol`, a no longer open
active link to `bob`, and a pending incoming link from `dan`. -/
def c4St : PeerState :=
  ⟨some ⟨"me", false⟩, "Me",
   [("amy", ⟨1, "amy", true⟩), ("bob", ⟨2, "bob", false⟩), ("carol", ⟨3, "carol", true⟩)],
   [("dan", ⟨4, "dan", true⟩)], [], 9⟩

/-- C4 witness: with `bob`'s channel no longer open between the open links
of `amy` and `carol`, both `amy` and `carol` still receive the broadcast. -/
theorem broadcast_sends_exactly_open_active_witness :
    Effect.send 1 (chatPacket (JVal.str "hi")) ∈ broadcast c4St (JVal.str "hi") ∧
    Effect.send 3 (chatPacket (JVal.str "hi")) ∈ broadcast c4St (JVal.str "hi") := by
  have h := broadcast_sends_exactly_open_active c4St (JVal.str "hi")
  exact ⟨h.1 "amy" ⟨1, "amy", true⟩ (by simp [c4St]) rfl,
         h.1 "carol" ⟨3, "carol", true⟩ (by simp [c4St]) rfl⟩

/-! ### C8 — unknown kinds are dropped, but a malformed payload throws -/

/-- C8 counterexample: a `DELETE_MESSAGE` message without a payload is not
dropped silently: the dispatch handler dereferences `msg.payload.id` and
throws a TypeError. -/
theorem malformed_delete_message_throws_counterexample :
    handleData stEmpty ⟨1, "amy", true⟩ (JVal.obj [("type", JVal.str "DELETE_MESSAGE")]) =
      .error "TypeError" := rfl

/-- C8 amended: a message whose kind tag matches none of the seven known
kinds is dropped silently — no error, no effect, no event, and the registry
state is unchanged, so subsequent messages are unaffected; but a message of
a known kind whose absent payload is dereferenced (here `DELETE_MESSAGE`
without payload) throws a TypeError from the handler instead of being
dropped silently.  In the source every such read happens before any state
mutation of the branch, so a throwing message also leaves the registry
unchanged. -/
theorem unknown_kind_dropped_malformed_throws (st : PeerState) (conn : Conn)
    (data : JVal) (t : JVal)
    (ht : getField data "type" = .ok t)
    (h1 : JVal.strEq t "HANDSHAKE_INIT" = false)
    (h2 : JVal.strEq t "HANDSHAKE_ACCEPT" = false)
    (h3 : JVal.strEq t "CHAT_MESSAGE" = false)
    (h4 : JVal.strEq t "CHANNEL_SYNC" = false)
    (h5 : JVal.strEq t "BOARD_UPDATE" = false)
    (h6 : JVal.strEq t "DELETE_MESSAGE" = false)
    (h7 : JVal.strEq t "TYPING_STATUS" = false) :
    handleData st conn data = .ok (st, [], []) ∧
    handleData st conn (JVal.obj [("type", JVal.str "DELETE_MESSAGE")]) =
      .error "TypeError" := by
  refine ⟨?_, rfl⟩
  unfold handleData
  rw [ht, exceptOkBind]
  simp [h1, h2, h3, h4, h5, h6, h7]
  rfl

/-- C8 witness: a message of the unknown kind `WEIRD` is dropped silently
on the fresh service, and the payload-less `DELETE_MESSAGE` throws. -/
theorem unknown_kind_dropped_malformed_throws_witness :
    handleData stEmpty ⟨1, "amy", true⟩ (JVal.obj [("type", JVal.str "WEIRD")]) =
      .ok (stEmpty, [], []) ∧
    handleData stEmpty ⟨1, "amy", true⟩ (JVal.obj [("type", JVal.str "DELETE_MESSAGE")]) =
      .error "TypeError" :=
  unknown_kind_dropped_malformed_throws stEmpty ⟨1, "amy", true⟩
    (JVal.obj [("type", JVal.str "WEIRD")]) (JVal.str "WEIRD")
    rfl rfl rfl rfl rfl rfl rfl rfl

end QT
